import Mathlib

/-!
Verification development for the OffRecord peer-feedback application.

The repository has two code generations that coexist in the tree:
* a Supabase generation: `src/src/db.js`, `src/unnamed/part_002` (a db layer
  variant), `src/supabase/schema.sql` and `src/supabase/patch.sql` (tables,
  RPCs `submit_feedback` / `redeem_invitation`, and row-level-security
  policies);
* a Firestore generation: `src/unnamed/part_001` (App + db layer) and
  `src/src/App.jsx`.

This file shallowly embeds the data model (rows of the `groups`,
`invitations`, `submissions`, `feedback`, `profiles` tables), the server-side
RPCs, the row-level-security read policies for feedback, the client-side
survey screens as small state machines, and the validation logic of
`createGroup` / `redeem_invitation` / `deleteGroupCascade`, and proves the
specified properties about them.

Conventions used throughout:
* SQL/JS strings are Lean `String`s; uuids are opaque `String`s; timestamps
  are `Nat` parameters (`now`) supplied to each operation.
* Database-generated ids (`gen_random_uuid()`) are supplied as parameters or
  placeholders; no claim depends on their values.
* A plpgsql function body runs in one transaction: `raise exception` aborts
  the whole call and leaves the database unchanged.  Functions that can raise
  are embedded as `Except String _`; returning `.error` means the transaction
  rolled back, so the caller's state is unchanged.
-/

namespace OffRecord

/-- JavaScript's `String.prototype.toLowerCase()` (and SQL `lower()`),
modelled as a character-wise lowering of the string's character list. -/
def jsToLower (s : String) : String :=
  ⟨s.data.map Char.toLower⟩

/-- JavaScript's `String.prototype.trim()`: drop whitespace from both ends
of the character list. -/
def jsTrim (s : String) : String :=
  ⟨((s.data.dropWhile Char.isWhitespace).reverse.dropWhile
      Char.isWhitespace).reverse⟩

/-- The `normalizeEmail` helper from `src/src/db.js` (line 3):
`String(email || "").trim().toLowerCase()`. -/
def normalizeEmail (email : String) : String :=
  jsToLower (jsTrim email)

/-- A row of the `public.submissions` table (`supabase/schema.sql` lines
90-96): `(id, group_id, respondent_uid, submitted_at)` with a uniqueness
constraint on `(group_id, respondent_uid)`.  The generated `id` is omitted;
no claim refers to it. -/
structure SubmissionRow where
  groupId : String
  respondentUid : String
  submittedAt : Nat
deriving DecidableEq, Repr

/-- A row of the `public.feedback` table (`supabase/schema.sql` lines
102-111). -/
structure FeedbackRow where
  groupId : String
  respondentUid : String
  recipientEmailLower : String
  strengths : String
  improvements : String
  score : Int
  submittedAt : Nat
deriving DecidableEq, Repr

/-- A row of the `public.invitations` table (`supabase/schema.sql` lines
33-44). -/
structure InvitationRow where
  id : Nat
  groupId : String
  hostUid : String
  hostEmailLower : String
  emailLower : String
  name : String
  tempPassword : String
  redeemedByUid : Option String
  redeemedAt : Option Nat
deriving DecidableEq, Repr

/-- A row of the `public.profiles` table (`supabase/schema.sql` lines 7-14),
restricted to the fields the feedback read policy consults. -/
structure ProfileRow where
  id : String
  emailLower : String
deriving DecidableEq, Repr

/-- A roster entry inside a group's `members` jsonb column:
`{emailLower, name}`. -/
structure Member where
  emailLower : String
  name : String
deriving DecidableEq, Repr

/-- A row of the `public.groups` table (`supabase/schema.sql` lines 19-27). -/
structure GroupRow where
  id : String
  name : String
  hostUid : String
  hostEmailLower : String
  members : List Member
  memberEmails : List String
deriving DecidableEq, Repr

/-- The relational store: one list of rows per table. -/
structure Store where
  groups : List GroupRow
  invitations : List InvitationRow
  submissions : List SubmissionRow
  feedback : List FeedbackRow
  profiles : List ProfileRow
deriving DecidableEq, Repr

/-- One element of the `items` jsonb array passed to the `submit_feedback`
RPC.  The SQL reads `item->>'recipientEmailLower'`,
`item->>'recipient_email_lower'`, `item->>'strengths'`,
`item->>'improvements'`, `item->>'score'`; a missing key yields SQL null,
modelled as `none`.  The score text is cast with `::integer`; it is modelled
as the parsed integer. -/
structure SubmitItem where
  recipientEmailLower : Option String
  recipient_email_lower : Option String
  strengths : Option String
  improvements : Option String
  score : Option Int
deriving DecidableEq, Repr

/-- The coalesce of the two recipient keys:
`coalesce(item->>'recipientEmailLower', item->>'recipient_email_lower')`
(`supabase/patch.sql` line 65). -/
def SubmitItem.recipientKey (it : SubmitItem) : Option String :=
  it.recipientEmailLower.orElse fun _ => it.recipient_email_lower

/-- The feedback row inserted for one item by `submit_feedback`
(`supabase/patch.sql` lines 55-69), given the coalesced recipient key `r`. -/
def mkFeedbackRow (group_id_input authUid : String) (now : Nat)
    (it : SubmitItem) (r : String) : FeedbackRow :=
  { groupId := group_id_input
    respondentUid := authUid
    recipientEmailLower := jsToLower r
    strengths := it.strengths.getD ""
    improvements := it.improvements.getD ""
    score := it.score.getD 0
    submittedAt := now }

/-- The insertion loop of `submit_feedback` (`supabase/patch.sql` lines
53-70).  If an item's coalesced recipient key is SQL null, the insert into
the not-null column `recipient_email_lower` raises, aborting the
transaction. -/
def insertFeedbackRows (group_id_input authUid : String) (now : Nat) :
    List SubmitItem → Except String (List FeedbackRow)
  | [] => .ok []
  | it :: rest =>
    match it.recipientKey with
    | none => .error "null value in column recipient_email_lower"
    | some r =>
      (insertFeedbackRows group_id_input authUid now rest).map
        (mkFeedbackRow group_id_input authUid now it r :: ·)

/-- The `submit_feedback` RPC from `supabase/patch.sql` lines 37-72: insert
the submission row with `on conflict (group_id, respondent_uid) do nothing`;
if no row was inserted (the uniqueness constraint fired), raise; otherwise
insert one feedback row per item.  The whole body is one transaction, so an
`.error` result leaves the store unchanged.  The `any` test below is exactly
the firing condition of the `unique (group_id, respondent_uid)` constraint
(`supabase/schema.sql` line 95). -/
def submit_feedback (st : Store) (authUid : String) (now : Nat)
    (group_id_input : String) (items : List SubmitItem) : Except String Store :=
  if st.submissions.any fun s =>
      s.groupId == group_id_input && s.respondentUid == authUid then
    .error "You have already submitted feedback for this group"
  else
    match insertFeedbackRows group_id_input authUid now items with
    | .error e => .error e
    | .ok rows =>
      .ok { st with
        submissions := st.submissions ++ [⟨group_id_input, authUid, now⟩]
        feedback := st.feedback ++ rows }

/-- The `submitGroupResponse` client wrapper from `src/src/db.js` lines
167-174 (identical in `src/unnamed/part_002` lines 220-227):
it executes `void respondentUid; void respondentEmailLower;` and calls the
`submit_feedback` RPC with only `(group_id_input, items)`; the session
identity `authUid` is what the RPC records via `auth.uid()`. -/
def submitGroupResponse (st : Store) (authUid : String) (now : Nat)
    (groupId respondentUid respondentEmailLower : String)
    (feedbackItems : List SubmitItem) : Except String Store :=
  -- void respondentUid; void respondentEmailLower;
  submit_feedback st authUid now groupId feedbackItems

lemma insertFeedbackRows_ok_of_keys (group_id_input authUid : String) (now : Nat)
    (items : List SubmitItem) (h : ∀ it ∈ items, it.recipientKey.isSome) :
    ∃ rows : List FeedbackRow,
      insertFeedbackRows group_id_input authUid now items = .ok rows ∧
      rows.length = items.length ∧
      ∀ f ∈ rows, f.groupId = group_id_input ∧ f.respondentUid = authUid := by
  induction items with
  | nil => exact ⟨[], rfl, rfl, by simp⟩
  | cons it rest ih =>
    have hit : it.recipientKey.isSome := h it (by simp)
    obtain ⟨r, hr⟩ := Option.isSome_iff_exists.mp hit
    obtain ⟨rows, hrows, hlen, hall⟩ := ih fun x hx => h x (by simp [hx])
    refine ⟨mkFeedbackRow group_id_input authUid now it r :: rows, ?_, by simp [hlen], ?_⟩
    · simp [insertFeedbackRows, hr, hrows, Except.map]
    · intro f hf
      rcases List.mem_cons.mp hf with hf | hf
      · subst hf; exact ⟨rfl, rfl⟩
      · exact hall f hf

lemma insertFeedbackRows_rows_respondent {group_id_input authUid : String} {now : Nat}
    {items : List SubmitItem} {rows : List FeedbackRow}
    (h : insertFeedbackRows group_id_input authUid now items = .ok rows) :
    ∀ f ∈ rows, f.groupId = group_id_input ∧ f.respondentUid = authUid := by
  induction items generalizing rows with
  | nil =>
    simp only [insertFeedbackRows] at h
    cases h; simp
  | cons it rest ih =>
    simp only [insertFeedbackRows] at h
    cases hk : it.recipientKey with
    | none => rw [hk] at h; cases h
    | some r =>
      rw [hk] at h
      cases hrec : insertFeedbackRows group_id_input authUid now rest with
      | error e => rw [hrec] at h; cases h
      | ok rows0 =>
        rw [hrec] at h
        simp only [Except.map] at h
        cases h
        intro f hf
        rcases List.mem_cons.mp hf with hf | hf
        · subst hf; exact ⟨rfl, rfl⟩
        · exact ih hrec f hf

/-- The existing-submission test of `submit_feedback`, as a proposition. -/
def alreadySubmitted (st : Store) (group_id_input authUid : String) : Prop :=
  ∃ s ∈ st.submissions, s.groupId = group_id_input ∧ s.respondentUid = authUid

instance (st : Store) (g u : String) : Decidable (alreadySubmitted st g u) := by
  unfold alreadySubmitted; infer_instance

lemma alreadySubmitted_iff_any (st : Store) (g u : String) :
    alreadySubmitted st g u ↔
      (st.submissions.any fun s => s.groupId == g && s.respondentUid == u) = true := by
  simp [alreadySubmitted, List.any_eq_true]

/-- C1 (amended, Supabase path): `submit_feedback` is atomic and
at-most-once.  If a submission row for `(group, respondent)` already exists,
the call fails with the conflict error raised when the
`(group_id, respondent_uid)` uniqueness constraint suppresses the insert,
and (the transaction having rolled back) the store is unchanged.
Otherwise, for a well-formed item list the call creates exactly one
submission row for the pair plus exactly one feedback row per element of
`items`, all in one transaction.  The Firestore variant does not satisfy
this — see the counterexample below. -/
theorem submit_feedback_atomic_at_most_once (st : Store) (authUid : String)
    (now : Nat) (g : String) (items : List SubmitItem) :
    (alreadySubmitted st g authUid →
      submit_feedback st authUid now g items =
        .error "You have already submitted feedback for this group") ∧
    (¬ alreadySubmitted st g authUid →
      (∀ it ∈ items, it.recipientKey.isSome) →
      ∃ rows : List FeedbackRow,
        submit_feedback st authUid now g items =
          .ok { st with
            submissions := st.submissions ++ [⟨g, authUid, now⟩]
            feedback := st.feedback ++ rows } ∧
        rows.length = items.length) := by
  constructor
  · intro h
    rw [alreadySubmitted_iff_any] at h
    simp [submit_feedback, h]
  · intro h hkeys
    rw [alreadySubmitted_iff_any] at h
    obtain ⟨rows, hrows, hlen, -⟩ :=
      insertFeedbackRows_ok_of_keys g authUid now items hkeys
    refine ⟨rows, ?_, hlen⟩
    simp only [submit_feedback]
    rw [if_neg (by simp [h]), hrows]

/-- Witness for C1: with a prior submission by `u1` for `g1`, the call
conflicts; on a fresh store, it creates the submission row plus one feedback
row for the single item. -/
theorem submit_feedback_atomic_at_most_once_witness :
    (submit_feedback ⟨[], [], [⟨"g1", "u1", 0⟩], [], []⟩ "u1" 1 "g1" [] =
      .error "You have already submitted feedback for this group") ∧
    ∃ rows : List FeedbackRow,
      submit_feedback ⟨[], [], [], [], []⟩ "u1" 1 "g1"
          [⟨some "b@x.com", none, some "s", some "i", some 100⟩] =
        .ok { groups := [], invitations := [],
              submissions := [⟨"g1", "u1", 1⟩],
              feedback := rows, profiles := [] } ∧
      rows.length = 1 := by
  constructor
  · exact (submit_feedback_atomic_at_most_once
      ⟨[], [], [⟨"g1", "u1", 0⟩], [], []⟩ "u1" 1 "g1" []).1 (by decide)
  · exact (submit_feedback_atomic_at_most_once
      ⟨[], [], [], [], []⟩ "u1" 1 "g1"
      [⟨some "b@x.com", none, some "s", some "i", some 100⟩]).2
      (by decide) (by decide)

/-- C10: the stored respondent identity does not depend on the
caller-supplied identity arguments.  `submitGroupResponse` discards
`respondentUid` and `respondentEmailLower`, so two calls differing only in
those arguments are literally the same computation; and every submission or
feedback row the call adds carries the authenticated session's uid. -/
theorem submitGroupResponse_ignores_identity_args (st : Store)
    (authUid : String) (now : Nat) (g u1 e1 u2 e2 : String)
    (items : List SubmitItem) :
    submitGroupResponse st authUid now g u1 e1 items =
      submitGroupResponse st authUid now g u2 e2 items ∧
    (∀ st', submitGroupResponse st authUid now g u1 e1 items = .ok st' →
      (∀ s ∈ st'.submissions, s ∈ st.submissions ∨ s.respondentUid = authUid) ∧
      (∀ f ∈ st'.feedback, f ∈ st.feedback ∨ f.respondentUid = authUid)) := by
  refine ⟨rfl, ?_⟩
  intro st' hok
  simp only [submitGroupResponse, submit_feedback] at hok
  by_cases hc : (st.submissions.any fun s =>
      s.groupId == g && s.respondentUid == authUid) = true
  · rw [if_pos hc] at hok; cases hok
  · rw [if_neg hc] at hok
    cases hrec : insertFeedbackRows g authUid now items with
    | error e => rw [hrec] at hok; cases hok
    | ok rows =>
      rw [hrec] at hok
      cases hok
      constructor
      · intro s hs
        rcases List.mem_append.mp hs with hs | hs
        · exact Or.inl hs
        · simp only [List.mem_singleton] at hs; subst hs; exact Or.inr rfl
      · intro f hf
        rcases List.mem_append.mp hf with hf | hf
        · exact Or.inl hf
        · exact Or.inr (insertFeedbackRows_rows_respondent hrec f hf).2

/-- Witness for C10: concrete instantiation of the row-attribution part on a
fresh store with one item. -/
theorem submitGroupResponse_ignores_identity_args_witness :
    submitGroupResponse ⟨[], [], [], [], []⟩ "session-uid" 1 "g1" "spoofed-uid"
        "spoofed@x.com" [⟨some "b@x.com", none, some "s", some "i", some 100⟩] =
      submitGroupResponse ⟨[], [], [], [], []⟩ "session-uid" 1 "g1" "other-uid"
        "other@x.com" [⟨some "b@x.com", none, some "s", some "i", some 100⟩] ∧
    ∀ s ∈ ({ groups := [], invitations := [], submissions := [⟨"g1", "session-uid", 1⟩],
             feedback := [mkFeedbackRow "g1" "session-uid" 1
               ⟨some "b@x.com", none, some "s", some "i", some 100⟩ "b@x.com"],
             profiles := [] } : Store).submissions,
      s ∈ ([] : List SubmissionRow) ∨ s.respondentUid = "session-uid" := by
  refine ⟨(submitGroupResponse_ignores_identity_args ⟨[], [], [], [], []⟩
    "session-uid" 1 "g1" "spoofed-uid" "spoofed@x.com" "other-uid" "other@x.com"
    [⟨some "b@x.com", none, some "s", some "i", some 100⟩]).1, ?_⟩
  exact ((submitGroupResponse_ignores_identity_args ⟨[], [], [], [], []⟩
    "session-uid" 1 "g1" "spoofed-uid" "spoofed@x.com" "other-uid" "other@x.com"
    [⟨some "b@x.com", none, some "s", some "i", some 100⟩]).2 _ (by rfl)).1

/-! ### Cascade delete (C8) -/

/-- The `deleteGroupCascade` client call (`src/src/db.js` lines 216-220)
issues `delete from groups where id = groupId`.  The schema declares
`references public.groups (id) on delete cascade` on
`invitations.group_id`, `submissions.group_id` and `feedback.group_id`
(`supabase/schema.sql` lines 35, 92, 104), so the database removes every
dependent row in the same transaction.  This definition embeds that declared
semantics; `profiles` has no foreign key to `groups` and is untouched. -/
def deleteGroupCascade (st : Store) (groupId : String) : Store :=
  { groups := st.groups.filter fun g => !(g.id == groupId)
    invitations := st.invitations.filter fun i => !(i.groupId == groupId)
    submissions := st.submissions.filter fun s => !(s.groupId == groupId)
    feedback := st.feedback.filter fun f => !(f.groupId == groupId)
    profiles := st.profiles }

/-- C8: after `deleteGroupCascade g`, zero invitation, submission or
feedback rows referencing `g` remain (and the group row itself is gone),
while every row of another group survives; the whole removal is the single
atomic operation `deleteGroupCascade`. -/
theorem deleteGroupCascade_no_orphans (st : Store) (g : String) :
    (∀ gr ∈ (deleteGroupCascade st g).groups, gr.id ≠ g) ∧
    (∀ i ∈ (deleteGroupCascade st g).invitations, i.groupId ≠ g) ∧
    (∀ s ∈ (deleteGroupCascade st g).submissions, s.groupId ≠ g) ∧
    (∀ f ∈ (deleteGroupCascade st g).feedback, f.groupId ≠ g) ∧
    (∀ i ∈ st.invitations, i.groupId ≠ g →
      i ∈ (deleteGroupCascade st g).invitations) ∧
    (∀ s ∈ st.submissions, s.groupId ≠ g →
      s ∈ (deleteGroupCascade st g).submissions) ∧
    (∀ f ∈ st.feedback, f.groupId ≠ g →
      f ∈ (deleteGroupCascade st g).feedback) := by
  refine ⟨?_, ?_, ?_, ?_, ?_, ?_, ?_⟩ <;>
    intro x hx <;>
    simp [deleteGroupCascade, List.mem_filter] at hx ⊢ <;>
    tauto

/-- Witness for C8: on a concrete store holding rows for groups `g1` and
`g2`, deleting `g1` keeps the `g2` invitation. -/
theorem deleteGroupCascade_no_orphans_witness :
    (⟨2, "g2", "h", "h@x.com", "b@x.com", "B", "pw2", none, none⟩ : InvitationRow) ∈
      (deleteGroupCascade
        ⟨[⟨"g1", "Team", "h", "h@x.com", [], []⟩],
         [⟨1, "g1", "h", "h@x.com", "a@x.com", "A", "pw1", none, none⟩,
          ⟨2, "g2", "h", "h@x.com", "b@x.com", "B", "pw2", none, none⟩],
         [⟨"g1", "u1", 0⟩], [], []⟩ "g1").invitations := by
  exact (deleteGroupCascade_no_orphans
    ⟨[⟨"g1", "Team", "h", "h@x.com", [], []⟩],
     [⟨1, "g1", "h", "h@x.com", "a@x.com", "A", "pw1", none, none⟩,
      ⟨2, "g2", "h", "h@x.com", "b@x.com", "B", "pw2", none, none⟩],
     [⟨"g1", "u1", 0⟩], [], []⟩ "g1").2.2.2.2.1
    ⟨2, "g2", "h", "h@x.com", "b@x.com", "B", "pw2", none, none⟩
    (by decide) (by decide)

/-! ### Feedback read authorization (C3) -/

/-- The `feedback_read_host` select policy (`supabase/schema.sql` lines
260-269, not dropped by the patch): the group's host may read every feedback
row of the group. -/
def feedback_read_host (st : Store) (authUid : String) (f : FeedbackRow) : Bool :=
  st.groups.any fun g => g.id == f.groupId && g.hostUid == authUid

/-- The patched `feedback_read_recipient` select policy
(`supabase/patch.sql` lines 180-196): the caller may read a feedback row iff
they redeemed an invitation for that email in that group, or their profile
carries that email. -/
def feedback_read_recipient (st : Store) (authUid : String) (f : FeedbackRow) : Bool :=
  (st.invitations.any fun i =>
    i.groupId == f.groupId && i.redeemedByUid == some authUid &&
      i.emailLower == f.recipientEmailLower) ||
  (st.profiles.any fun p =>
    p.id == authUid && p.emailLower == f.recipientEmailLower)

/-- Postgres combines the select policies of a table with OR. -/
def canSelectFeedback (st : Store) (authUid : String) (f : FeedbackRow) : Bool :=
  feedback_read_host st authUid f || feedback_read_recipient st authUid f

/-- The `listGroupFeedbackForRecipient` query (`src/src/db.js` lines
222-232): `select * from feedback where group_id = groupId and
recipient_email_lower = normalizeEmail(recipientEmailLower)`, evaluated
under row-level security, so the caller only sees rows the select policies
grant. -/
def listGroupFeedbackForRecipient (st : Store) (authUid : String)
    (groupId recipientEmailLower : String) : List FeedbackRow :=
  let normalized := normalizeEmail recipientEmailLower
  (st.feedback.filter (canSelectFeedback st authUid)).filter fun f =>
    f.groupId == groupId && f.recipientEmailLower == normalized

/-- C3: every row returned by `listGroupFeedbackForRecipient` has exactly the
requested group id and the normalized (trimmed, lowercased) recipient email —
it never returns another recipient's rows — and independently of any client
filtering, the data layer's select policies only expose a feedback row to the
group's host or to an identity bound to the row's recipient email (by a
redeemed invitation in that group, or by their own profile email). -/
theorem listGroupFeedbackForRecipient_recipient_only (st : Store)
    (authUid g e : String) :
    (∀ f ∈ listGroupFeedbackForRecipient st authUid g e,
      f.groupId = g ∧ f.recipientEmailLower = normalizeEmail e) ∧
    (∀ f ∈ st.feedback, canSelectFeedback st authUid f = true →
      (∃ gr ∈ st.groups, gr.id = f.groupId ∧ gr.hostUid = authUid) ∨
      (∃ i ∈ st.invitations, i.groupId = f.groupId ∧
        i.redeemedByUid = some authUid ∧ i.emailLower = f.recipientEmailLower) ∨
      (∃ p ∈ st.profiles, p.id = authUid ∧
        p.emailLower = f.recipientEmailLower)) := by
  constructor
  · intro f hf
    simp only [listGroupFeedbackForRecipient, List.mem_filter, Bool.and_eq_true,
      beq_iff_eq] at hf
    exact ⟨hf.2.1, hf.2.2⟩
  · intro f _ h
    simp only [canSelectFeedback, feedback_read_host, feedback_read_recipient,
      List.any_eq_true, Bool.or_eq_true, Bool.and_eq_true, beq_iff_eq] at h
    rcases h with h | h | h
    · exact Or.inl (by obtain ⟨gr, hgr, h1, h2⟩ := h; exact ⟨gr, hgr, h1, h2⟩)
    · refine Or.inr (Or.inl ?_)
      obtain ⟨i, hi, ⟨h1, h2⟩, h3⟩ := h
      exact ⟨i, hi, h1, h2, h3⟩
    · refine Or.inr (Or.inr ?_)
      obtain ⟨p, hp, h1, h2⟩ := h
      exact ⟨p, hp, h1, h2⟩

/-- Witness for C3: in a store where `u2` redeemed Bob's invitation and a
feedback row for Bob exists, the read-policy part yields the invitation
binding. -/
theorem listGroupFeedbackForRecipient_recipient_only_witness :
    (∃ gr ∈ ([] : List GroupRow),
      gr.id = "g1" ∧ gr.hostUid = "u2") ∨
    (∃ i ∈ [(⟨1, "g1", "h", "h@x.com", "bob@x.com", "Bob", "pw",
        some "u2", some 5⟩ : InvitationRow)], i.groupId = "g1" ∧
      i.redeemedByUid = some "u2" ∧ i.emailLower = "bob@x.com") ∨
    (∃ p ∈ ([] : List ProfileRow), p.id = "u2" ∧ p.emailLower = "bob@x.com") := by
  exact (listGroupFeedbackForRecipient_recipient_only
    ⟨[], [⟨1, "g1", "h", "h@x.com", "bob@x.com", "Bob", "pw", some "u2", some 5⟩],
     [], [⟨"g1", "u1", "bob@x.com", "s", "i", 100, 3⟩], []⟩
    "u2" "g1" " Bob@X.com ").2
    ⟨"g1", "u1", "bob@x.com", "s", "i", 100, 3⟩ (by decide) (by decide)

/-! ### Report average score (C9) -/

/-- JavaScript's Math.round rounds half towards positive infinity; on exact
rationals that is ⌊q + 1/2⌋.  The JS number arithmetic of the report modal
is modelled as exact rational arithmetic (scores are small integers). -/
def mathRound (q : ℚ) : ℤ := ⌊q + 1 / 2⌋

/-- The accumulator `totalScore` of the report modal
(`src/unnamed/part_001` line 1362):
`shuffledFeedback.reduce((sum, f) => sum + f.score, 0)`. -/
def totalScore (rows : List FeedbackRow) : ℤ :=
  (rows.map fun f => f.score).sum

/-- The `averageScore` of the report modal (`src/unnamed/part_001` line
1363, same in `src/src/App.jsx` line 1141):
`length > 0 ? Math.round(totalScore / length) : 0`. -/
def averageScore (rows : List FeedbackRow) : ℤ :=
  if 0 < rows.length then
    mathRound ((totalScore rows : ℚ) / (rows.length : ℚ))
  else 0

/-- C9: for a non-empty set of feedback rows, the aggregate score is the
arithmetic mean of the integer scores rounded to the nearest integer: it is
at least as close to the exact mean as every integer. -/
theorem averageScore_nearest_mean (rows : List FeedbackRow)
    (h : rows ≠ []) (m : ℤ) :
    |(averageScore rows : ℚ) - (totalScore rows : ℚ) / (rows.length : ℚ)| ≤
      |(m : ℚ) - (totalScore rows : ℚ) / (rows.length : ℚ)| := by
  have hlen : 0 < rows.length := List.length_pos.mpr h
  set q : ℚ := (totalScore rows : ℚ) / (rows.length : ℚ) with hq
  have havg : averageScore rows = round q := by
    rw [averageScore, if_pos hlen, mathRound, ← round_eq]
  rw [havg]
  have h1 : |q - (round q : ℚ)| ≤ 1 / 2 := abs_sub_round q
  have h1' : |(round q : ℚ) - q| ≤ 1 / 2 := by rwa [abs_sub_comm]
  by_cases hm : m = round q
  · subst hm; exact le_refl _
  · have hge : (1 : ℚ) ≤ |(m : ℚ) - (round q : ℚ)| := by
      have : (1 : ℤ) ≤ |m - round q| := Int.one_le_abs (sub_ne_zero.mpr hm)
      calc (1 : ℚ) ≤ ((|m - round q| : ℤ) : ℚ) := by exact_mod_cast this
        _ = |(m : ℚ) - (round q : ℚ)| := by push_cast; ring_nf
    have htri : |(m : ℚ) - (round q : ℚ)| ≤ |(m : ℚ) - q| + |q - (round q : ℚ)| :=
      abs_sub_le _ _ _
    linarith

/-- Witness for C9: two rows with scores 60 and 40 average to 50, which is
at least as close to the exact mean as the integer 7. -/
theorem averageScore_nearest_mean_witness :
    ([(⟨"g1", "u1", "b@x.com", "s", "i", 60, 0⟩ : FeedbackRow),
      ⟨"g1", "u2", "b@x.com", "s", "i", 40, 0⟩] : List FeedbackRow) ≠ [] ∧
    |(averageScore [⟨"g1", "u1", "b@x.com", "s", "i", 60, 0⟩,
        ⟨"g1", "u2", "b@x.com", "s", "i", 40, 0⟩] : ℚ) -
      (totalScore [⟨"g1", "u1", "b@x.com", "s", "i", 60, 0⟩,
        ⟨"g1", "u2", "b@x.com", "s", "i", 40, 0⟩] : ℚ) / (2 : ℚ)| ≤
      |((7 : ℤ) : ℚ) -
        (totalScore [⟨"g1", "u1", "b@x.com", "s", "i", 60, 0⟩,
          ⟨"g1", "u2", "b@x.com", "s", "i", 40, 0⟩] : ℚ) / (2 : ℚ)| :=
  ⟨by decide,
   averageScore_nearest_mean
     [⟨"g1", "u1", "b@x.com", "s", "i", 60, 0⟩,
      ⟨"g1", "u2", "b@x.com", "s", "i", 40, 0⟩] (by decide) 7⟩

/-! ### Survey screen state machine, part_001 variant (C2, C4 amended) -/

/-- One entry of the `responses` state of the `SurveyScreen` in
`src/unnamed/part_001` (lines 1788-1796): `{recipientName,
recipientEmailLower, strengths, improvements, score}`. -/
structure SurveyResponse where
  recipientName : String
  recipientEmailLower : String
  strengths : String
  improvements : String
  score : Int
deriving DecidableEq, Repr

/-- The `canProceed` check (part_001 lines 1855-1857): the current entry has
truthy (non-empty) trimmed strengths and improvements and a positive
score. -/
def canProceed (r : SurveyResponse) : Bool :=
  !(jsTrim r.strengths == "") && !(jsTrim r.improvements == "") &&
    decide (0 < r.score)

lemma canProceed_iff (r : SurveyResponse) :
    canProceed r = true ↔
      (jsTrim r.strengths ≠ "" ∧ jsTrim r.improvements ≠ "" ∧ 0 < r.score) := by
  simp [canProceed, and_assoc]

/-- The `recipients` list (part_001 lines 1785-1787): the group members
minus the respondent —
`members.filter(m => m.emailLower.toLowerCase() !== user.emailLower)`. -/
def recipientsOf (userEmailLower : String) (members : List Member) : List Member :=
  members.filter fun m => !(jsToLower m.emailLower == userEmailLower)

/-- The initial `responses` state (part_001 lines 1788-1796): one blank
entry per recipient, with score 0. -/
def initialResponses (recipients : List Member) : List SurveyResponse :=
  recipients.map fun m => ⟨m.name, jsToLower m.emailLower, "", "", 0⟩

/-- The mutable state of the survey screen: the cursor `currentMemberIdx`
and the `responses` array.  (The transient `submitting` flag only debounces
the in-flight network call and plays no part in the validation rule.) -/
structure SurveyState where
  currentMemberIdx : Nat
  responses : List SurveyResponse
deriving DecidableEq, Repr

/-- `allocatedPoints = responses.reduce((sum, r) => sum + r.score, 0)`
(part_001 line 1801). -/
def allocatedPoints (s : SurveyState) : Int :=
  (s.responses.map fun r => r.score).sum

/-- `totalPoints = recipients.length * 100` (part_001 line 1800); the
`responses` array keeps exactly one entry per recipient in every reachable
state, so the budget is stated over its length. -/
def totalPoints (s : SurveyState) : Int :=
  (s.responses.length : Int) * 100

/-- `remainingPoints = totalPoints - allocatedPoints` (part_001 line 1802). -/
def remainingPoints (s : SurveyState) : Int :=
  totalPoints s - allocatedPoints s

/-- The state transitions of the survey screen: `updateResponse` writes one
field of the current entry (part_001 lines 1849-1853, called from the two
text areas and the score input with `parseInt(...) || 0`), `handleNext`
advances past the current entry — its button is disabled unless
`canProceed()` (lines 1859-1863, 2014) — and `handleBack` steps back (lines
1865-1869). -/
inductive SurveyStep : SurveyState → SurveyState → Prop
  | updateStrengths (s : SurveyState) (r : SurveyResponse) (v : String)
      (hget : s.responses[s.currentMemberIdx]? = some r) :
      SurveyStep s ⟨s.currentMemberIdx,
        s.responses.set s.currentMemberIdx { r with strengths := v }⟩
  | updateImprovements (s : SurveyState) (r : SurveyResponse) (v : String)
      (hget : s.responses[s.currentMemberIdx]? = some r) :
      SurveyStep s ⟨s.currentMemberIdx,
        s.responses.set s.currentMemberIdx { r with improvements := v }⟩
  | updateScore (s : SurveyState) (r : SurveyResponse) (v : Int)
      (hget : s.responses[s.currentMemberIdx]? = some r) :
      SurveyStep s ⟨s.currentMemberIdx,
        s.responses.set s.currentMemberIdx { r with score := v }⟩
  | next (s : SurveyState) (r : SurveyResponse)
      (hget : s.responses[s.currentMemberIdx]? = some r)
      (hlt : s.currentMemberIdx < s.responses.length - 1)
      (hcan : canProceed r = true) :
      SurveyStep s ⟨s.currentMemberIdx + 1, s.responses⟩
  | back (s : SurveyState) (hpos : 0 < s.currentMemberIdx) :
      SurveyStep s ⟨s.currentMemberIdx - 1, s.responses⟩

/-- The survey states reachable from opening the screen on a recipient
list. -/
def SurveyReachable (recipients : List Member) (s : SurveyState) : Prop :=
  Relation.ReflTransGen SurveyStep ⟨0, initialResponses recipients⟩ s

/-- The submit button's enabled condition (part_001 lines 2013-2026): the
button only exists on the last recipient's card (earlier cards show
Continue), and is enabled iff `canProceed()` holds for the current entry and
`remainingPoints === 0` (the transient `submitting` debounce aside). -/
def submitEnabled (s : SurveyState) : Bool :=
  (s.currentMemberIdx == s.responses.length - 1) &&
  (match s.responses[s.currentMemberIdx]? with
   | some r => canProceed r
   | none => false) &&
  (remainingPoints s == 0)

/-- Invariant of the survey screen: one entry per recipient, the cursor in
range, and every entry strictly before the cursor complete (Continue was
enabled when the cursor passed it, and an entry can only be edited while the
cursor is on it). -/
def SurveyInv (n : Nat) (s : SurveyState) : Prop :=
  s.responses.length = n ∧ s.currentMemberIdx < n ∧
  ∀ j, j < s.currentMemberIdx →
    ∀ r, s.responses[j]? = some r → canProceed r = true

lemma surveyInv_setCurrent {n : Nat} {s : SurveyState}
    (hinv : SurveyInv n s) (r' : SurveyResponse) :
    SurveyInv n ⟨s.currentMemberIdx, s.responses.set s.currentMemberIdx r'⟩ := by
  obtain ⟨hlen, hidx, hfill⟩ := hinv
  unfold SurveyInv
  dsimp only
  refine ⟨by simpa using hlen, hidx, ?_⟩
  intro j hj r hr
  rw [List.getElem?_set_ne (by omega)] at hr
  exact hfill j hj r hr

lemma surveyStep_inv {n : Nat} {s s' : SurveyState}
    (hinv : SurveyInv n s) (h : SurveyStep s s') : SurveyInv n s' := by
  cases h with
  | updateStrengths r v hget => exact surveyInv_setCurrent hinv _
  | updateImprovements r v hget => exact surveyInv_setCurrent hinv _
  | updateScore r v hget => exact surveyInv_setCurrent hinv _
  | next r hget hlt hcan =>
    obtain ⟨hlen, hidx, hfill⟩ := hinv
    unfold SurveyInv
    dsimp only
    refine ⟨hlen, by omega, ?_⟩
    intro j hj r' hr'
    rcases Nat.lt_succ_iff_lt_or_eq.mp hj with hj' | hj'
    · exact hfill j hj' r' hr'
    · subst hj'
      rw [hget] at hr'
      cases hr'
      exact hcan
  | back hpos =>
    obtain ⟨hlen, hidx, hfill⟩ := hinv
    unfold SurveyInv
    dsimp only
    exact ⟨hlen, by omega, fun j hj r hr => hfill j (by omega) r hr⟩

lemma surveyReachable_inv (recipients : List Member) (hrec : recipients ≠ [])
    (s : SurveyState) (hs : SurveyReachable recipients s) :
    SurveyInv recipients.length s := by
  induction hs with
  | refl =>
    unfold SurveyInv
    dsimp only
    refine ⟨by simp [initialResponses], List.length_pos.mpr hrec, ?_⟩
    intro j hj
    exact absurd hj (Nat.not_lt_zero j)
  | tail hpre hstep ih => exact surveyStep_inv ih hstep

/-- C2: in every reachable survey state, the submit action is enabled if and
only if the cursor sits on the last of the `n` recipients, every one of the
`n` entries has non-empty (trimmed) strengths and improvements text and a
positive score, and the allocated points sum to exactly `100 * n` — both
over- and under-allocation make `remainingPoints ≠ 0` and block
submission. -/
theorem submitEnabled_iff (recipients : List Member) (hrec : recipients ≠ [])
    (s : SurveyState) (hs : SurveyReachable recipients s) :
    submitEnabled s = true ↔
      (s.currentMemberIdx = recipients.length - 1 ∧
       (∀ r ∈ s.responses,
         jsTrim r.strengths ≠ "" ∧ jsTrim r.improvements ≠ "" ∧ 0 < r.score) ∧
       allocatedPoints s = 100 * (recipients.length : Int)) := by
  obtain ⟨hlen, hidx, hfill⟩ := surveyReachable_inv recipients hrec s hs
  have hnpos : 0 < recipients.length := List.length_pos.mpr hrec
  constructor
  · intro h
    simp only [submitEnabled, Bool.and_eq_true, beq_iff_eq] at h
    obtain ⟨⟨hidx', hcur⟩, hrem⟩ := h
    cases hget : s.responses[s.currentMemberIdx]? with
    | none =>
      rw [hget] at hcur
      cases hcur
    | some rcur =>
      rw [hget] at hcur
      refine ⟨by omega, ?_, ?_⟩
      · intro r hr
        obtain ⟨j, hj⟩ := List.mem_iff_getElem?.mp hr
        have hjlt : j < s.responses.length :=
          (List.getElem?_eq_some_iff.mp hj).1
        rw [← canProceed_iff]
        by_cases hje : j = s.currentMemberIdx
        · subst hje
          rw [hget] at hj
          cases hj
          exact hcur
        · have : j < s.currentMemberIdx := by omega
          exact hfill j this r hj
      · have : remainingPoints s = 0 := by exact_mod_cast hrem
        simp only [remainingPoints, totalPoints, hlen] at this
        omega
  · rintro ⟨hidx', hall, hsum⟩
    simp only [submitEnabled, Bool.and_eq_true, beq_iff_eq]
    cases hget : s.responses[s.currentMemberIdx]? with
    | none =>
      have := List.getElem?_eq_none_iff.mp hget
      omega
    | some rcur =>
      refine ⟨⟨by omega, ?_⟩, ?_⟩
      · exact (canProceed_iff rcur).mpr (hall rcur (List.getElem?_mem hget))
      · have : remainingPoints s = 0 := by
          simp only [remainingPoints, totalPoints, hlen]
          omega
        exact_mod_cast this

/-- Witness for C2: a one-recipient survey whose single entry is complete
with exactly 100 points allocated is reachable (three field edits from the
initial state) and has the submit action enabled. -/
theorem submitEnabled_iff_witness :
    submitEnabled ⟨0, [⟨"Bob", "bob@x.com", "great", "more", 100⟩]⟩ = true := by
  have h1 : SurveyStep ⟨0, initialResponses [⟨"bob@x.com", "Bob"⟩]⟩
      ⟨0, [⟨"Bob", "bob@x.com", "great", "", 0⟩]⟩ :=
    SurveyStep.updateStrengths _ ⟨"Bob", "bob@x.com", "", "", 0⟩ "great" (by decide)
  have h2 : SurveyStep ⟨0, [⟨"Bob", "bob@x.com", "great", "", 0⟩]⟩
      ⟨0, [⟨"Bob", "bob@x.com", "great", "more", 0⟩]⟩ :=
    SurveyStep.updateImprovements _ ⟨"Bob", "bob@x.com", "great", "", 0⟩ "more" (by decide)
  have h3 : SurveyStep ⟨0, [⟨"Bob", "bob@x.com", "great", "more", 0⟩]⟩
      ⟨0, [⟨"Bob", "bob@x.com", "great", "more", 100⟩]⟩ :=
    SurveyStep.updateScore _ ⟨"Bob", "bob@x.com", "great", "more", 0⟩ 100 (by decide)
  have hreach : SurveyReachable [⟨"bob@x.com", "Bob"⟩]
      ⟨0, [⟨"Bob", "bob@x.com", "great", "more", 100⟩]⟩ :=
    ((Relation.ReflTransGen.single h1).tail h2).tail h3
  exact (submitEnabled_iff [⟨"bob@x.com", "Bob"⟩] (by decide) _ hreach).mpr
    ⟨by decide, by decide, by decide⟩

lemma surveyStep_no_new_email {u : String} {s s' : SurveyState}
    (h : SurveyStep s s')
    (hall : ∀ item ∈ s.responses, item.recipientEmailLower ≠ u) :
    ∀ item ∈ s'.responses, item.recipientEmailLower ≠ u := by
  cases h with
  | updateStrengths r v hget =>
    intro item hitem
    rcases List.mem_or_eq_of_mem_set hitem with h' | h'
    · exact hall item h'
    · subst h'
      exact hall r (List.getElem?_mem hget)
  | updateImprovements r v hget =>
    intro item hitem
    rcases List.mem_or_eq_of_mem_set hitem with h' | h'
    · exact hall item h'
    · subst h'
      exact hall r (List.getElem?_mem hget)
  | updateScore r v hget =>
    intro item hitem
    rcases List.mem_or_eq_of_mem_set hitem with h' | h'
    · exact hall item h'
    · subst h'
      exact hall r (List.getElem?_mem hget)
  | next r hget hlt hcan => exact hall
  | back hpos => exact hall

/-- C4 amended: in the part_001 survey variant the recipient list filters
out the respondent, so no reachable state — in particular no submittable
one — carries an entry whose recipient email equals the respondent's own
normalized email; `handleSubmit` sends exactly `responses` as the item
list, so no submitted item is self-feedback. -/
theorem part001_survey_no_self_feedback (userEmailLower : String)
    (members : List Member) (s : SurveyState)
    (hs : SurveyReachable (recipientsOf userEmailLower members) s) :
    (s.responses.all fun item =>
      !(item.recipientEmailLower == userEmailLower)) = true := by
  simp only [List.all_eq_true, Bool.not_eq_true', beq_eq_false_iff_ne]
  induction hs with
  | refl =>
    intro item hitem
    simp only [initialResponses, List.mem_map] at hitem
    obtain ⟨m, hm, rfl⟩ := hitem
    simp only [recipientsOf, List.mem_filter, Bool.not_eq_true',
      beq_eq_false_iff_ne] at hm
    exact hm.2
  | tail hpre hstep ih => exact surveyStep_no_new_email hstep ih

/-- Witness for C4 amended: for respondent alice in a two-member group, the
initial survey state (reachable by zero steps) contains no entry addressed
to her own email. -/
theorem part001_survey_no_self_feedback_witness :
    (([⟨"Bob", "bob@x.com", "", "", 0⟩] : List SurveyResponse).all fun item =>
      !(item.recipientEmailLower == "alice@x.com")) = true :=
  part001_survey_no_self_feedback "alice@x.com"
    [⟨"alice@x.com", "Alice"⟩, ⟨"bob@x.com", "Bob"⟩]
    ⟨0, [⟨"Bob", "bob@x.com", "", "", 0⟩]⟩ Relation.ReflTransGen.refl

/-! ### Survey screen state machine, src/src/App.jsx variant (C4) -/

/-- One entry of the `responses` state of the `SurveyScreen` in
`src/src/App.jsx` (lines 1563-1571): `{memberName, memberEmail, strengths,
improvements, score}`. -/
structure AppSurveyResponse where
  memberName : String
  memberEmail : String
  strengths : String
  improvements : String
  score : Int
deriving DecidableEq, Repr

/-- The initial `responses` state of the App.jsx `SurveyScreen` (lines
1563-1571): one blank entry per element of `group.members` — the list is
NOT filtered by the respondent's own email.  `memberEmail` is
`String(m.emailLower || m.email || "").toLowerCase()`. -/
def appInitialResponses (members : List Member) : List AppSurveyResponse :=
  members.map fun m => ⟨m.name, jsToLower m.emailLower, "", "", 0⟩

/-- `canProceed` in App.jsx (lines 1588-1590), same rule as part_001. -/
def appCanProceed (r : AppSurveyResponse) : Bool :=
  !(jsTrim r.strengths == "") && !(jsTrim r.improvements == "") &&
    decide (0 < r.score)

/-- The App.jsx survey screen state. -/
structure AppSurveyState where
  currentMemberIdx : Nat
  responses : List AppSurveyResponse
deriving DecidableEq, Repr

/-- `allocatedPoints` (App.jsx line 1576). -/
def appAllocatedPoints (s : AppSurveyState) : Int :=
  (s.responses.map fun r => r.score).sum

/-- `totalPoints = group.members.length * 100` (App.jsx line 1575); the
responses list has one entry per member. -/
def appTotalPoints (s : AppSurveyState) : Int :=
  (s.responses.length : Int) * 100

/-- `remainingPoints` (App.jsx line 1577). -/
def appRemainingPoints (s : AppSurveyState) : Int :=
  appTotalPoints s - appAllocatedPoints s

/-- State transitions of the App.jsx survey screen (`updateResponse` lines
1582-1586, `handleNext` lines 1592-1596 gated by `canProceed`, `handleBack`
lines 1598-1602). -/
inductive AppSurveyStep : AppSurveyState → AppSurveyState → Prop
  | updateStrengths (s : AppSurveyState) (r : AppSurveyResponse) (v : String)
      (hget : s.responses[s.currentMemberIdx]? = some r) :
      AppSurveyStep s ⟨s.currentMemberIdx,
        s.responses.set s.currentMemberIdx { r with strengths := v }⟩
  | updateImprovements (s : AppSurveyState) (r : AppSurveyResponse) (v : String)
      (hget : s.responses[s.currentMemberIdx]? = some r) :
      AppSurveyStep s ⟨s.currentMemberIdx,
        s.responses.set s.currentMemberIdx { r with improvements := v }⟩
  | updateScore (s : AppSurveyState) (r : AppSurveyResponse) (v : Int)
      (hget : s.responses[s.currentMemberIdx]? = some r) :
      AppSurveyStep s ⟨s.currentMemberIdx,
        s.responses.set s.currentMemberIdx { r with score := v }⟩
  | next (s : AppSurveyState) (r : AppSurveyResponse)
      (hget : s.responses[s.currentMemberIdx]? = some r)
      (hlt : s.currentMemberIdx < s.responses.length - 1)
      (hcan : appCanProceed r = true) :
      AppSurveyStep s ⟨s.currentMemberIdx + 1, s.responses⟩
  | back (s : AppSurveyState) (hpos : 0 < s.currentMemberIdx) :
      AppSurveyStep s ⟨s.currentMemberIdx - 1, s.responses⟩

/-- The App.jsx survey states reachable from opening the screen on a
member list. -/
def AppSurveyReachable (members : List Member) (s : AppSurveyState) : Prop :=
  Relation.ReflTransGen AppSurveyStep ⟨0, appInitialResponses members⟩ s

/-- The App.jsx submit button condition (lines 1750-1757, `submitting`
debounce aside); `handleSubmit` (lines 1604-1617) then passes the whole
`responses` array as `feedbackItems`. -/
def appSubmitEnabled (s : AppSurveyState) : Bool :=
  (s.currentMemberIdx == s.responses.length - 1) &&
  (match s.responses[s.currentMemberIdx]? with
   | some r => appCanProceed r
   | none => false) &&
  (appRemainingPoints s == 0)

/-- C4 counterexample: in the `src/src/App.jsx` survey variant the
`responses` array is built over ALL of `group.members`, including the
respondent.  With respondent alice (a member of the two-person group
alice/bob), a fully-filled survey state is reachable, its submit action is
enabled, and the item list that `handleSubmit` passes to
`submitGroupResponse` contains an item whose recipient email equals the
respondent's own email — self-feedback, contradicting the claimed
invariant. -/
theorem appSurvey_self_feedback_counterexample :
    AppSurveyReachable [⟨"alice@x.com", "Alice"⟩, ⟨"bob@x.com", "Bob"⟩]
      ⟨1, [⟨"Alice", "alice@x.com", "leads", "delegate", 100⟩,
           ⟨"Bob", "bob@x.com", "kind", "deadlines", 100⟩]⟩ ∧
    appSubmitEnabled
      ⟨1, [⟨"Alice", "alice@x.com", "leads", "delegate", 100⟩,
           ⟨"Bob", "bob@x.com", "kind", "deadlines", 100⟩]⟩ = true ∧
    (([⟨"Alice", "alice@x.com", "leads", "delegate", 100⟩,
       ⟨"Bob", "bob@x.com", "kind", "deadlines", 100⟩] :
        List AppSurveyResponse).any fun item =>
      item.memberEmail == "alice@x.com") = true := by
  refine ⟨?_, by decide, by decide⟩
  have h1 : AppSurveyStep
      ⟨0, appInitialResponses [⟨"alice@x.com", "Alice"⟩, ⟨"bob@x.com", "Bob"⟩]⟩
      ⟨0, [⟨"Alice", "alice@x.com", "leads", "", 0⟩,
           ⟨"Bob", "bob@x.com", "", "", 0⟩]⟩ :=
    AppSurveyStep.updateStrengths _ ⟨"Alice", "alice@x.com", "", "", 0⟩ "leads"
      (by decide)
  have h2 : AppSurveyStep
      ⟨0, [⟨"Alice", "alice@x.com", "leads", "", 0⟩,
           ⟨"Bob", "bob@x.com", "", "", 0⟩]⟩
      ⟨0, [⟨"Alice", "alice@x.com", "leads", "delegate", 0⟩,
           ⟨"Bob", "bob@x.com", "", "", 0⟩]⟩ :=
    AppSurveyStep.updateImprovements _ ⟨"Alice", "alice@x.com", "leads", "", 0⟩
      "delegate" (by decide)
  have h3 : AppSurveyStep
      ⟨0, [⟨"Alice", "alice@x.com", "leads", "delegate", 0⟩,
           ⟨"Bob", "bob@x.com", "", "", 0⟩]⟩
      ⟨0, [⟨"Alice", "alice@x.com", "leads", "delegate", 100⟩,
           ⟨"Bob", "bob@x.com", "", "", 0⟩]⟩ :=
    AppSurveyStep.updateScore _ ⟨"Alice", "alice@x.com", "leads", "delegate", 0⟩
      100 (by decide)
  have h4 : AppSurveyStep
      ⟨0, [⟨"Alice", "alice@x.com", "leads", "delegate", 100⟩,
           ⟨"Bob", "bob@x.com", "", "", 0⟩]⟩
      ⟨1, [⟨"Alice", "alice@x.com", "leads", "delegate", 100⟩,
           ⟨"Bob", "bob@x.com", "", "", 0⟩]⟩ :=
    AppSurveyStep.next _ ⟨"Alice", "alice@x.com", "leads", "delegate", 100⟩
      (by decide) (by decide) (by decide)
  have h5 : AppSurveyStep
      ⟨1, [⟨"Alice", "alice@x.com", "leads", "delegate", 100⟩,
           ⟨"Bob", "bob@x.com", "", "", 0⟩]⟩
      ⟨1, [⟨"Alice", "alice@x.com", "leads", "delegate", 100⟩,
           ⟨"Bob", "bob@x.com", "kind", "", 0⟩]⟩ :=
    AppSurveyStep.updateStrengths _ ⟨"Bob", "bob@x.com", "", "", 0⟩ "kind"
      (by decide)
  have h6 : AppSurveyStep
      ⟨1, [⟨"Alice", "alice@x.com", "leads", "delegate", 100⟩,
           ⟨"Bob", "bob@x.com", "kind", "", 0⟩]⟩
      ⟨1, [⟨"Alice", "alice@x.com", "leads", "delegate", 100⟩,
           ⟨"Bob", "bob@x.com", "kind", "deadlines", 0⟩]⟩ :=
    AppSurveyStep.updateImprovements _ ⟨"Bob", "bob@x.com", "kind", "", 0⟩
      "deadlines" (by decide)
  have h7 : AppSurveyStep
      ⟨1, [⟨"Alice", "alice@x.com", "leads", "delegate", 100⟩,
           ⟨"Bob", "bob@x.com", "kind", "deadlines", 0⟩]⟩
      ⟨1, [⟨"Alice", "alice@x.com", "leads", "delegate", 100⟩,
           ⟨"Bob", "bob@x.com", "kind", "deadlines", 100⟩]⟩ :=
    AppSurveyStep.updateScore _ ⟨"Bob", "bob@x.com", "kind", "deadlines", 0⟩
      100 (by decide)
  exact ((((((Relation.ReflTransGen.single h1).tail h2).tail h3).tail
    h4).tail h5).tail h6).tail h7

/-! ### Completion counting (C5) -/

/-- A Firestore `responses` document as listed by `listGroupResponses` in
the part_001 db layer (lines 2185-2203): it stores `respondentUid` and
`respondentEmailLower` (the embedded `feedbackItems` play no role here). -/
structure ResponseDoc where
  groupId : String
  respondentUid : String
  respondentEmailLower : String
deriving DecidableEq, Repr

/-- The Firestore db layer's `submitGroupResponse`
(`src/unnamed/part_001` lines 2192-2203): a plain `addDoc` into the
`responses` collection.  The document (carrying `groupId`, `respondentUid`,
the normalized `respondentEmailLower`, a server timestamp and the embedded
`feedbackItems` — the latter two irrelevant to the at-most-once question)
is appended unconditionally: there is no `(groupId, respondentUid)`
uniqueness check, no transaction, and no conflict path. -/
def firestoreSubmitGroupResponse (responses : List ResponseDoc)
    (groupId respondentUid respondentEmailLower : String) : List ResponseDoc :=
  responses ++ [⟨groupId, respondentUid, normalizeEmail respondentEmailLower⟩]

/-- C1 counterexample: the Firestore variant of `submitGroupResponse` cited
by the claim is a bare `addDoc` with no uniqueness constraint.  Starting
from an empty `responses` collection, respondent `u1` submits twice for
group `g1`: the second call does not fail with a conflict error — it
succeeds and appends a second document, so two response documents for
`(g1, u1)` are stored, falsifying at-most-once for this variant. -/
theorem firestoreSubmitGroupResponse_counterexample :
    firestoreSubmitGroupResponse
        (firestoreSubmitGroupResponse [] "g1" "u1" "a@x.com")
        "g1" "u1" "a@x.com" =
      [⟨"g1", "u1", "a@x.com"⟩, ⟨"g1", "u1", "a@x.com"⟩] ∧
    ((firestoreSubmitGroupResponse
        (firestoreSubmitGroupResponse [] "g1" "u1" "a@x.com")
        "g1" "u1" "a@x.com").filter fun d =>
      d.groupId == "g1" && d.respondentUid == "u1").length = 2 := by
  decide

/-- `participantSet` in the `src/src/App.jsx` `loadStatus` (lines 650-654):
`new Set(participantEmails.filter(Boolean))`; its size is the number of
distinct non-empty roster emails. -/
def participantSet (memberEmails : List String) : List String :=
  (memberEmails.filter fun e => !(e == "")).dedup

/-- `respondentEmails` in App.jsx `loadStatus` (line 655). -/
def respondentEmails (responses : List ResponseDoc) : List String :=
  (responses.map fun r => jsToLower r.respondentEmailLower).filter
    fun e => !(e == "")

/-- `respondentsInParticipants` in App.jsx `loadStatus` (line 656):
`new Set(respondentEmails.filter(e => participantSet.has(e)))`. -/
def respondentsInParticipants (memberEmails : List String)
    (responses : List ResponseDoc) : List String :=
  ((respondentEmails responses).filter
    fun e => (participantSet memberEmails).contains e).dedup

/-- The completion counts of the App.jsx `loadStatus` (lines 658-659):
`completed = respondentsInParticipants.size`, `total = participantSet.size`. -/
def appLoadStatus (memberEmails : List String) (responses : List ResponseDoc) :
    Nat × Nat :=
  ((respondentsInParticipants memberEmails responses).length,
   (participantSet memberEmails).length)

/-- The completion counts of the part_001 `loadStatus` (lines 828-848):
`respondents = new Set(submissions.map(s => s.respondentUid).filter(Boolean))`,
`completed = respondents.size`, `total = members.length` — no intersection
with the roster. -/
def part001LoadStatus (members : List Member)
    (submissions : List SubmissionRow) : Nat × Nat :=
  let respondents :=
    ((submissions.map fun s => s.respondentUid).filter fun u => !(u == "")).dedup
  (respondents.length, members.length)

/-- C5 counterexample: the part_001 `loadStatus` counts every distinct
submission respondent without intersecting the current roster.  For a group
whose roster shrank to the single member `a@x.com` while two submissions
(by uids `u1`, `u2`) remain, it reports `completed = 2 > 1 = total`,
contradicting the claim that removed members' submissions are excluded and
that `completed` never exceeds `total`. -/
theorem part001LoadStatus_counterexample :
    (part001LoadStatus [⟨"a@x.com", "A"⟩]
        [⟨"g1", "u1", 0⟩, ⟨"g1", "u2", 1⟩]).1 >
      (part001LoadStatus [⟨"a@x.com", "A"⟩]
        [⟨"g1", "u1", 0⟩, ⟨"g1", "u2", 1⟩]).2 := by
  decide

/-- C5 amended: the `src/src/App.jsx` variant of `loadStatus` does satisfy
the claim: `total` is the number of distinct non-empty roster emails,
`completed` counts only distinct respondent emails that are present in the
current roster (the intersection), and therefore `completed ≤ total`.  The
part_001 variant counts all distinct submission respondents, so there
`completed` can exceed `total` (see the counterexample). -/
theorem appLoadStatus_completed_le_total (memberEmails : List String)
    (responses : List ResponseDoc) :
    (∀ e ∈ respondentsInParticipants memberEmails responses,
      e ∈ participantSet memberEmails ∧ e ∈ respondentEmails responses) ∧
    (appLoadStatus memberEmails responses).1 ≤
      (appLoadStatus memberEmails responses).2 := by
  have hmem : ∀ e ∈ respondentsInParticipants memberEmails responses,
      e ∈ participantSet memberEmails ∧ e ∈ respondentEmails responses := by
    intro e he
    simp only [respondentsInParticipants, List.mem_dedup, List.mem_filter,
      List.contains, List.elem_eq_mem, decide_eq_true_eq] at he
    exact ⟨he.2, he.1⟩
  refine ⟨hmem, ?_⟩
  simp only [appLoadStatus]
  have h1 : (respondentsInParticipants memberEmails responses).Nodup :=
    List.nodup_dedup _
  have h2 : (participantSet memberEmails).Nodup := List.nodup_dedup _
  calc (respondentsInParticipants memberEmails responses).length
      = (respondentsInParticipants memberEmails responses).toFinset.card :=
        (List.toFinset_card_of_nodup h1).symm
    _ ≤ (participantSet memberEmails).toFinset.card := by
        apply Finset.card_le_card
        intro e he
        rw [List.mem_toFinset] at he ⊢
        exact (hmem e he).1
    _ = (participantSet memberEmails).length := List.toFinset_card_of_nodup h2

/-- Witness for C5 amended: with a two-member roster of which only one has
submitted (plus a stale submission from a removed member), completed stays
within total. -/
theorem appLoadStatus_completed_le_total_witness :
    (appLoadStatus ["a@x.com", "b@x.com"]
        [⟨"g1", "u1", "a@x.com"⟩, ⟨"g1", "u9", "gone@x.com"⟩]).1 ≤
      (appLoadStatus ["a@x.com", "b@x.com"]
        [⟨"g1", "u1", "a@x.com"⟩, ⟨"g1", "u9", "gone@x.com"⟩]).2 :=
  (appLoadStatus_completed_le_total ["a@x.com", "b@x.com"]
    [⟨"g1", "u1", "a@x.com"⟩, ⟨"g1", "u9", "gone@x.com"⟩]).2

/-! ### Invitation redemption (C6) -/

/-- The lookup predicate of `redeem_invitation` (`supabase/schema.sql`
lines 60-65): `email_lower = lower(email_lower_input) and temp_password =
temp_password_input`. -/
def invitationMatches (email_lower_input temp_password_input : String)
    (i : InvitationRow) : Bool :=
  i.emailLower == jsToLower email_lower_input &&
    i.tempPassword == temp_password_input

/-- The SQL `update public.invitations set ... where id = inv.id`. -/
def updateInvitation (invs : List InvitationRow) (targetId : Nat)
    (inv' : InvitationRow) : List InvitationRow :=
  invs.map fun i => if i.id = targetId then inv' else i

/-- The `redeem_invitation` RPC of `supabase/schema.sql` lines 52-85
(strict policy): look up by lowered email and exact temp password
(`limit 1`); raise on no match; raise if redeemed by a different uid; bind
`redeemed_by_uid`/`redeemed_at` if unredeemed; return the row unchanged if
already redeemed by the caller.  An `.error` result rolls the transaction
back. -/
def redeem_invitation (invs : List InvitationRow) (authUid : String)
    (now : Nat) (email_lower_input temp_password_input : String) :
    Except String (InvitationRow × List InvitationRow) :=
  match invs.find? (invitationMatches email_lower_input temp_password_input) with
  | none => .error "Invalid email or temporary password"
  | some inv =>
    match inv.redeemedByUid with
    | some u =>
      if u == authUid then .ok (inv, invs)
      else .error "Invitation already redeemed"
    | none =>
      let inv' := { inv with redeemedByUid := some authUid, redeemedAt := some now }
      .ok (inv', updateInvitation invs inv.id inv')

/-- The patched `redeem_invitation` RPC of `supabase/patch.sql` lines
77-107 ("latest session wins"): same lookup; rebind whenever the invitation
is unredeemed or bound to a different uid; return unchanged when already
bound to the caller. -/
def redeem_invitation_latest (invs : List InvitationRow) (authUid : String)
    (now : Nat) (email_lower_input temp_password_input : String) :
    Except String (InvitationRow × List InvitationRow) :=
  match invs.find? (invitationMatches email_lower_input temp_password_input) with
  | none => .error "Invalid email or temporary password"
  | some inv =>
    if (match inv.redeemedByUid with
        | none => true
        | some u => u != authUid) then
      let inv' := { inv with redeemedByUid := some authUid, redeemedAt := some now }
      .ok (inv', updateInvitation invs inv.id inv')
    else .ok (inv, invs)

lemma find?_updateInvitation {p : InvitationRow → Bool}
    {invs : List InvitationRow} {inv inv' : InvitationRow}
    (hfind : invs.find? p = some inv) (hp : p inv' = true) :
    (updateInvitation invs inv.id inv').find? p = some inv' := by
  induction invs with
  | nil => cases hfind
  | cons x xs ih =>
    rw [List.find?_cons] at hfind
    simp only [updateInvitation, List.map_cons]
    by_cases hx : x.id = inv.id
    · rw [if_pos hx, List.find?_cons, hp]
    · rw [if_neg hx, List.find?_cons]
      cases hpx : p x with
      | true =>
        rw [hpx] at hfind
        cases hfind
        exact absurd rfl hx
      | false =>
        rw [hpx] at hfind
        exact ih hfind

/-- C6: contract of invitation redemption, for both observed policies.
If no invitation matches the lowered email together with the exact
credential, both variants fail with the invalid-credentials error (the
transaction rolls back, leaving the table unchanged).  When the matching
invitation is unredeemed, a successful call binds `redeemedByUid` to the
caller and sets `redeemedAt` to the call time.  Re-redeeming with the same
identity is idempotent in both variants: the same invitation is returned
and the table is unchanged. -/
theorem redeem_invitation_contract (invs : List InvitationRow)
    (authUid : String) (now now2 : Nat) (e pw : String) :
    ((∀ i ∈ invs, invitationMatches e pw i = false) →
      redeem_invitation invs authUid now e pw =
        .error "Invalid email or temporary password" ∧
      redeem_invitation_latest invs authUid now e pw =
        .error "Invalid email or temporary password") ∧
    (∀ inv, invs.find? (invitationMatches e pw) = some inv →
      inv.redeemedByUid = none →
      redeem_invitation invs authUid now e pw =
        .ok ({ inv with redeemedByUid := some authUid, redeemedAt := some now },
          updateInvitation invs inv.id
            { inv with redeemedByUid := some authUid, redeemedAt := some now }) ∧
      redeem_invitation_latest invs authUid now e pw =
        .ok ({ inv with redeemedByUid := some authUid, redeemedAt := some now },
          updateInvitation invs inv.id
            { inv with redeemedByUid := some authUid, redeemedAt := some now })) ∧
    (∀ inv1 invs1, redeem_invitation invs authUid now e pw = .ok (inv1, invs1) →
      redeem_invitation invs1 authUid now2 e pw = .ok (inv1, invs1)) ∧
    (∀ inv1 invs1,
      redeem_invitation_latest invs authUid now e pw = .ok (inv1, invs1) →
      redeem_invitation_latest invs1 authUid now2 e pw = .ok (inv1, invs1)) := by
  refine ⟨?_, ?_, ?_, ?_⟩
  · intro h
    have hnone : invs.find? (invitationMatches e pw) = none := by
      rw [List.find?_eq_none]
      intro x hx
      simp [h x hx]
    constructor
    · simp [redeem_invitation, hnone]
    · simp [redeem_invitation_latest, hnone]
  · intro inv hfind hun
    constructor
    · simp [redeem_invitation, hfind, hun]
    · simp [redeem_invitation_latest, hfind, hun]
  · intro inv1 invs1 h
    simp only [redeem_invitation] at h
    cases hfind : invs.find? (invitationMatches e pw) with
    | none =>
      simp only [hfind] at h
      cases h
    | some inv =>
      simp only [hfind] at h
      have hpinv : invitationMatches e pw inv = true := List.find?_some hfind
      cases hred : inv.redeemedByUid with
      | some u =>
        simp only [hred] at h
        by_cases hu : (u == authUid) = true
        · rw [if_pos hu] at h
          cases h
          simp only [redeem_invitation, hfind, hred, if_pos hu]
        · rw [if_neg hu] at h
          cases h
      | none =>
        simp only [hred] at h
        cases h
        have hp' : invitationMatches e pw
            { inv with redeemedByUid := some authUid, redeemedAt := some now } =
            true := by
          simpa [invitationMatches] using hpinv
        simp [redeem_invitation, find?_updateInvitation hfind hp']
  · intro inv1 invs1 h
    simp only [redeem_invitation_latest] at h
    cases hfind : invs.find? (invitationMatches e pw) with
    | none =>
      simp only [hfind] at h
      cases h
    | some inv =>
      simp only [hfind] at h
      have hpinv : invitationMatches e pw inv = true := List.find?_some hfind
      cases hred : inv.redeemedByUid with
      | none =>
        simp only [hred] at h
        simp only [if_true] at h
        cases h
        have hp' : invitationMatches e pw
            { inv with redeemedByUid := some authUid, redeemedAt := some now } =
            true := by
          simpa [invitationMatches] using hpinv
        simp [redeem_invitation_latest, find?_updateInvitation hfind hp']
      | some u =>
        simp only [hred] at h
        by_cases hu : u = authUid
        · subst hu
          simp only [bne_self_eq_false, Bool.false_eq_true, if_false] at h
          cases h
          simp [redeem_invitation_latest, hfind, hred]
        · rw [if_pos (by simpa using hu)] at h
          cases h
          have hp' : invitationMatches e pw
              { inv with redeemedByUid := some authUid, redeemedAt := some now } =
              true := by
            simpa [invitationMatches] using hpinv
          simp [redeem_invitation_latest, find?_updateInvitation hfind hp']

/-- Witness for C6: redeeming a fresh invitation binds it to the caller and
stamps the time; redeeming again with the same identity returns the same
invitation and leaves the table unchanged. -/
theorem redeem_invitation_contract_witness :
    redeem_invitation
        [⟨1, "g1", "h", "h@x.com", "m@x.com", "M", "pw7", none, none⟩]
        "u1" 5 "m@x.com" "pw7" =
      .ok (⟨1, "g1", "h", "h@x.com", "m@x.com", "M", "pw7", some "u1", some 5⟩,
        [⟨1, "g1", "h", "h@x.com", "m@x.com", "M", "pw7", some "u1", some 5⟩]) ∧
    redeem_invitation
        [⟨1, "g1", "h", "h@x.com", "m@x.com", "M", "pw7", some "u1", some 5⟩]
        "u1" 9 "m@x.com" "pw7" =
      .ok (⟨1, "g1", "h", "h@x.com", "m@x.com", "M", "pw7", some "u1", some 5⟩,
        [⟨1, "g1", "h", "h@x.com", "m@x.com", "M", "pw7", some "u1", some 5⟩]) := by
  have hbind := (redeem_invitation_contract
      [⟨1, "g1", "h", "h@x.com", "m@x.com", "M", "pw7", none, none⟩]
      "u1" 5 9 "m@x.com" "pw7").2.1
    ⟨1, "g1", "h", "h@x.com", "m@x.com", "M", "pw7", none, none⟩
    (by decide) rfl
  have hidem := (redeem_invitation_contract
      [⟨1, "g1", "h", "h@x.com", "m@x.com", "M", "pw7", none, none⟩]
      "u1" 5 9 "m@x.com" "pw7").2.2.1
    ⟨1, "g1", "h", "h@x.com", "m@x.com", "M", "pw7", some "u1", some 5⟩
    [⟨1, "g1", "h", "h@x.com", "m@x.com", "M", "pw7", some "u1", some 5⟩]
    hbind.1
  exact ⟨hbind.1, hidem⟩

/-! ### Group creation validation (C7) -/

/-- A raw member entry passed to `createGroup`: `{email, name,
tempPassword}`. -/
structure MemberInput where
  email : String
  name : String
  tempPassword : String
deriving DecidableEq, Repr

/-- A normalized member entry. -/
structure NormalizedMember where
  emailLower : String
  name : String
  tempPassword : String
deriving DecidableEq, Repr

/-- The member normalization pipeline of `createGroup` (`src/src/db.js`
lines 74-80, identical in `src/unnamed/part_002` lines 77-83): normalize the
email, trim name and temp password, and drop entries missing any of the
three. -/
def normalizeMembers (members : List MemberInput) : List NormalizedMember :=
  (members.map fun m =>
      (⟨normalizeEmail m.email, jsTrim m.name, jsTrim m.tempPassword⟩ :
        NormalizedMember)).filter
    fun m => !(m.emailLower == "") && !(m.name == "") && !(m.tempPassword == "")

/-- The duplicate test `new Set(emails).size !== emails.length`
(`src/src/db.js` line 85). -/
def hasDuplicateEmails (emails : List String) : Bool :=
  emails.dedup.length != emails.length

/-- The `createGroup` of `src/src/db.js` lines 69-124: reject an empty
trimmed name, fewer than 3 normalized members, or duplicate normalized
emails; otherwise insert the group row (with the generated id supplied as
`newGroupId`) and one invitation row per member (invitation ids are
database-generated and irrelevant here, written as 0).  All three
validations throw before any insert is issued, so a `some`-error result
leaves the store unchanged.  This variant performs no comparison of member
emails against the host's email. -/
def createGroup (st : Store) (newGroupId : String)
    (name hostUid hostEmail : String) (members : List MemberInput) :
    Store × Option String :=
  let groupName := jsTrim name
  if groupName == "" then (st, some "Group name is required")
  else
    let normalizedMembers := normalizeMembers members
    if normalizedMembers.length < 3 then (st, some "You need at least 3 members")
    else
      let emails := normalizedMembers.map fun m => m.emailLower
      if hasDuplicateEmails emails then
        (st, some "Each member must have a unique email")
      else
        let membersForGroup := normalizedMembers.map fun m =>
          (⟨m.emailLower, m.name⟩ : Member)
        let groupRow : GroupRow :=
          ⟨newGroupId, groupName, hostUid, normalizeEmail hostEmail,
            membersForGroup, emails⟩
        let invites := normalizedMembers.map fun m =>
          (⟨0, newGroupId, hostUid, normalizeEmail hostEmail, m.emailLower,
            m.name, m.tempPassword, none, none⟩ : InvitationRow)
        ({ st with
            groups := st.groups ++ [groupRow]
            invitations := st.invitations ++ invites }, none)

/-- The `createGroup` of `src/unnamed/part_002` lines 69-130: reject an
empty trimmed name, a member email equal to the host's normalized email, or
duplicate normalized emails; the host is prepended to the stored member
list; no minimum member count is enforced.  The host display name falls
back from the trimmed `hostName` to the email's local part to "Host". -/
def createGroup2 (st : Store) (newGroupId : String)
    (name hostUid hostEmail hostName : String) (members : List MemberInput) :
    Store × Option String :=
  let groupName := jsTrim name
  if groupName == "" then (st, some "Group name is required")
  else
    let hostEmailLower := normalizeEmail hostEmail
    let hostDisplayName :=
      if jsTrim hostName == "" then
        (if hostEmailLower == "" then "Host"
         else ⟨hostEmailLower.data.takeWhile fun c => !(c == '@')⟩)
      else jsTrim hostName
    let normalizedMembers := normalizeMembers members
    let emails := normalizedMembers.map fun m => m.emailLower
    if emails.contains hostEmailLower then
      (st, some "You don't need to add yourself as a member")
    else if hasDuplicateEmails emails then
      (st, some "Each member must have a unique email")
    else
      let membersForGroup := (⟨hostEmailLower, hostDisplayName⟩ : Member) ::
        normalizedMembers.map fun m => (⟨m.emailLower, m.name⟩ : Member)
      let groupRow : GroupRow :=
        ⟨newGroupId, groupName, hostUid, hostEmailLower, membersForGroup,
          membersForGroup.map fun m => m.emailLower⟩
      let invites := normalizedMembers.map fun m =>
        (⟨0, newGroupId, hostUid, hostEmailLower, m.emailLower, m.name,
          m.tempPassword, none, none⟩ : InvitationRow)
      ({ st with
          groups := st.groups ++ [groupRow]
          invitations := st.invitations ++ invites }, none)

/-- C7 counterexample: the `src/src/db.js` `createGroup` performs no
host-email check.  With host email `host@x.com` and three members one of
whom uses exactly that email, the call does NOT fail with a validation
error — it succeeds and persists rows — contradicting the claim that a
member email equal to the host's is rejected. -/
theorem createGroup_no_host_email_check_counterexample :
    (createGroup ⟨[], [], [], [], []⟩ "g1" "Team" "host-uid" "host@x.com"
        [⟨"host@x.com", "Hank", "pw1"⟩, ⟨"a@x.com", "Ann", "pw2"⟩,
         ⟨"b@x.com", "Ben", "pw3"⟩]).2 = none ∧
    (createGroup ⟨[], [], [], [], []⟩ "g1" "Team" "host-uid" "host@x.com"
        [⟨"host@x.com", "Hank", "pw1"⟩, ⟨"a@x.com", "Ann", "pw2"⟩,
         ⟨"b@x.com", "Ben", "pw3"⟩]).1.groups ≠ [] := by
  decide

/-- C7 amended: each variant rejects a strict subset of the claimed
conditions, and any validation failure leaves the store unchanged.  The
`src/src/db.js` variant succeeds iff the trimmed name is non-empty, at
least 3 members survive normalization, and no two normalized emails
coincide — it never checks the host's email.  The `src/unnamed/part_002`
variant succeeds iff the trimmed name is non-empty, no member email equals
the host's normalized email, and no two normalized emails coincide — it
enforces no minimum count. -/
theorem createGroup_validation (st : Store) (nid name hostUid hostEmail
    hostName : String) (members : List MemberInput) :
    ((createGroup st nid name hostUid hostEmail members).2 = none ↔
      (jsTrim name ≠ "" ∧ 3 ≤ (normalizeMembers members).length ∧
        hasDuplicateEmails ((normalizeMembers members).map fun m =>
          m.emailLower) = false)) ∧
    (∀ err, (createGroup st nid name hostUid hostEmail members).2 = some err →
      (createGroup st nid name hostUid hostEmail members).1 = st) ∧
    ((createGroup2 st nid name hostUid hostEmail hostName members).2 = none ↔
      (jsTrim name ≠ "" ∧
        ((normalizeMembers members).map fun m => m.emailLower).contains
          (normalizeEmail hostEmail) = false ∧
        hasDuplicateEmails ((normalizeMembers members).map fun m =>
          m.emailLower) = false)) ∧
    (∀ err,
      (createGroup2 st nid name hostUid hostEmail hostName members).2 = some err →
      (createGroup2 st nid name hostUid hostEmail hostName members).1 = st) := by
  refine ⟨?_, ?_, ?_, ?_⟩
  · simp only [createGroup]
    split_ifs with h1 h2 h3 <;>
      simp_all [Nat.not_lt, beq_iff_eq]
  · intro err
    simp only [createGroup]
    split_ifs <;> simp
  · simp only [createGroup2]
    split_ifs with h1 h2 h3 <;>
      simp_all [beq_iff_eq]
  · intro err
    simp only [createGroup2]
    split_ifs <;> simp

/-- Witness for C7 amended: an empty group name is rejected by both
variants and leaves a concrete non-empty store untouched, and a valid
three-member request passes the db.js validation. -/
theorem createGroup_validation_witness :
    (createGroup ⟨[], [], [], [], [⟨"u0", "p@x.com"⟩]⟩ "g1" " " "h" "h@x.com"
        [⟨"a@x.com", "Ann", "pw1"⟩, ⟨"b@x.com", "Ben", "pw2"⟩,
         ⟨"c@x.com", "Cal", "pw3"⟩]).1 =
      ⟨[], [], [], [], [⟨"u0", "p@x.com"⟩]⟩ ∧
    (createGroup ⟨[], [], [], [], [⟨"u0", "p@x.com"⟩]⟩ "g1" "Team" "h" "h@x.com"
        [⟨"a@x.com", "Ann", "pw1"⟩, ⟨"b@x.com", "Ben", "pw2"⟩,
         ⟨"c@x.com", "Cal", "pw3"⟩]).2 = none := by
  constructor
  · exact (createGroup_validation ⟨[], [], [], [], [⟨"u0", "p@x.com"⟩]⟩ "g1" " "
      "h" "h@x.com" "H"
      [⟨"a@x.com", "Ann", "pw1"⟩, ⟨"b@x.com", "Ben", "pw2"⟩,
       ⟨"c@x.com", "Cal", "pw3"⟩]).2.1 "Group name is required" (by decide)
  · exact (createGroup_validation ⟨[], [], [], [], [⟨"u0", "p@x.com"⟩]⟩ "g1"
      "Team" "h" "h@x.com" "H"
      [⟨"a@x.com", "Ann", "pw1"⟩, ⟨"b@x.com", "Ben", "pw2"⟩,
       ⟨"c@x.com", "Cal", "pw3"⟩]).1.mpr (by decide)

end OffRecord
